import Mathlib

/-!
Shallow embedding of the LibraryCLI circulation engine
(`library/database.go` of the `LibraryCLI` Go repository).

Tables of the SQLite schema (migration 1 in `applyMigration1`) are modelled
as lists of row records; `CURRENT_TIMESTAMP` is modelled by a logical clock
`now` that advances on every committing write, so timestamps created by
distinct transactions are distinct (SQLite's wall-clock stamps have second
granularity; the model abstracts from sub-second ties).  `AUTOINCREMENT`
primary keys are modelled by `next…Id` counters starting at 1.  A SQL
`UPDATE … WHERE` is a `List.map` guarded by the `WHERE` condition, a
`DELETE … WHERE` is a `List.filter` by the negated condition, and a
`QueryRow` lookup is `List.find?`.  Each Go method that runs in a
transaction is a function `DBState → … → Except LibError (… × DBState)`:
an `error` result corresponds to `tx.Rollback()`, so the state is dropped
and the caller keeps the pre-state.
-/

/-- A row of the `books` table: `id, title, author, content, available,
borrower_id` where `borrower_id` is nullable (`Option Nat`). -/
structure BookRow where
  bid : Nat
  title : String
  author : String
  content : String
  available : Bool
  borrower : Option Nat
deriving Repr, DecidableEq

/-- A row of the `members` table: `id, name, password_hash` with
`password_hash TEXT DEFAULT NULL` (migration 3). -/
structure MemberRow where
  mid : Nat
  name : String
  passwordHash : Option String
deriving Repr, DecidableEq

/-- A row of the `checkouts` table: `id, book_id, member_id,
checkout_time, return_time` with nullable `return_time`. -/
structure CheckoutRow where
  cid : Nat
  bookId : Nat
  memberId : Nat
  checkoutTime : Nat
  returnTime : Option Nat
deriving Repr, DecidableEq

/-- A row of the `reservations` table: `id, book_id, member_id,
reservation_time, fulfilled_time` with nullable `fulfilled_time`. -/
structure ReservationRow where
  rid : Nat
  bookId : Nat
  memberId : Nat
  reservationTime : Nat
  fulfilledTime : Option Nat
deriving Repr, DecidableEq

/-- The whole SQLite store, plus the autoincrement counters and the clock. -/
structure DBState where
  books : List BookRow
  members : List MemberRow
  checkouts : List CheckoutRow
  reservations : List ReservationRow
  nextBookId : Nat
  nextMemberId : Nat
  nextCheckoutId : Nat
  nextReservationId : Nat
  now : Nat
deriving Repr, DecidableEq

/-- The fresh store right after `applyMigrations` on a new file: all tables
empty, autoincrement counters at 1. -/
def initState : DBState :=
  ⟨[], [], [], [], 1, 1, 1, 1, 0⟩

/-- Primary-key lookup `SELECT … FROM books WHERE id=?`. -/
def findBook (s : DBState) (bookID : Nat) : Option BookRow :=
  s.books.find? (fun b => b.bid == bookID)

/-- Primary-key lookup `SELECT … FROM members WHERE id=?`. -/
def findMember (s : DBState) (memberID : Nat) : Option MemberRow :=
  s.members.find? (fun m => m.mid == memberID)

/-- The `WHERE book_id=? AND member_id=? AND fulfilled_time IS NULL`
condition used by `ReserveBook`'s duplicate check. -/
def isOpenResFor (bookID memberID : Nat) (r : ReservationRow) : Bool :=
  r.bookId == bookID && r.memberId == memberID && r.fulfilledTime.isNone

/-- Whether `SELECT id FROM reservations WHERE book_id=? AND member_id=? AND
fulfilled_time IS NULL` returns a row (i.e. no `sql.ErrNoRows`). -/
def hasOpenReservation (s : DBState) (bookID memberID : Nat) : Bool :=
  s.reservations.any (isOpenResFor bookID memberID)

/-- The open reservations of one book, in row (rowid) order:
`WHERE book_id=? AND fulfilled_time IS NULL`. -/
def openResFor (s : DBState) (bookID : Nat) : List ReservationRow :=
  s.reservations.filter (fun r => r.bookId == bookID && r.fulfilledTime.isNone)

/-- The query `SELECT … FROM reservations WHERE book_id=? AND fulfilled_time
IS NULL ORDER BY reservation_time LIMIT 1`: the open reservation of the book with
the least `reservation_time` (scan order breaks ties, which the clock model
never produces). -/
def oldestOpenReservation (s : DBState) (bookID : Nat) : Option ReservationRow :=
  (openResFor s bookID).foldl
    (fun acc r =>
      match acc with
      | none => some r
      | some best =>
          if r.reservationTime < best.reservationTime then some r else some best)
    none

/-- The typed error outcomes of the circulation methods.  `nullScan` models
Go's `database/sql` failure "converting NULL to int64 is unsupported" that
`ReturnBook` hits when it scans a `NULL` `borrower_id` into a plain
`int64`. -/
inductive LibError where
  | bookNotFound
  | memberNotFound
  | bookUnavailable
  | bookNotCheckedOut
  | alreadyCheckedOutBySelf
  | duplicateReservation
  | noActiveReservation
  | nameEmpty
  | nameTaken
  | nullScan
deriving Repr, DecidableEq

/-- Method `Database.CheckoutBook` (database.go): check the book exists and is
available, check the member exists, then `UPDATE books SET available=0,
borrower_id=? WHERE id=?` and `INSERT INTO checkouts(book_id, member_id)`. -/
def CheckoutBook (s : DBState) (bookID memberID : Nat) : Except LibError DBState :=
  match findBook s bookID with
  | none => .error .bookNotFound
  | some bk =>
    if !bk.available then .error .bookUnavailable
    else
      match findMember s memberID with
      | none => .error .memberNotFound
      | some _ =>
        .ok { s with
          books := s.books.map (fun b =>
            if b.bid == bookID then { b with available := false, borrower := some memberID } else b),
          checkouts := s.checkouts ++ [⟨s.nextCheckoutId, bookID, memberID, s.now, none⟩],
          nextCheckoutId := s.nextCheckoutId + 1,
          now := s.now + 1 }

/-- Method `Database.ReserveBook` (database.go): look up the book's
`available, borrower_id` and check the member exists; if the book is
available, perform the same writes as `CheckoutBook`; otherwise reject the
current borrower (`borrowerID.Valid && borrowerID.Int64 == memberID`),
reject a duplicate open reservation, and otherwise
`INSERT INTO reservations(book_id, member_id)`. -/
def ReserveBook (s : DBState) (bookID memberID : Nat) : Except LibError DBState :=
  match findBook s bookID with
  | none => .error .bookNotFound
  | some bk =>
    match findMember s memberID with
    | none => .error .memberNotFound
    | some _ =>
      if bk.available then
        .ok { s with
          books := s.books.map (fun b =>
            if b.bid == bookID then { b with available := false, borrower := some memberID } else b),
          checkouts := s.checkouts ++ [⟨s.nextCheckoutId, bookID, memberID, s.now, none⟩],
          nextCheckoutId := s.nextCheckoutId + 1,
          now := s.now + 1 }
      else if (match bk.borrower with
               | some b => b == memberID
               | none => false) then
        .error .alreadyCheckedOutBySelf
      else if hasOpenReservation s bookID memberID then
        .error .duplicateReservation
      else
        .ok { s with
          reservations := s.reservations ++ [⟨s.nextReservationId, bookID, memberID, s.now, none⟩],
          nextReservationId := s.nextReservationId + 1,
          now := s.now + 1 }

/-- Method `Database.ReturnBook` (database.go).  It scans `borrower_id, available`
with `borrower_id` read into a plain `int64`, so a `NULL` borrower fails the
scan (`nullScan`) before the `available` check is reached.  On success it
stamps `return_time` on the open checkouts of (book, borrower), picks the
oldest open reservation, and either hands the book to that member —
`UPDATE books SET borrower_id=?`, stamp `fulfilled_time` on every
reservation row with `book_id=? AND member_id=?` (the Go `UPDATE` has no
`fulfilled_time IS NULL` guard), insert a fresh checkout — or, with no
reservation waiting, `UPDATE books SET available=1, borrower_id=NULL`. -/
def ReturnBook (s : DBState) (bookID : Nat) : Except LibError (Nat × DBState) :=
  match findBook s bookID with
  | none => .error .bookNotFound
  | some bk =>
    match bk.borrower with
    | none => .error .nullScan
    | some borrower =>
      if bk.available then .error .bookNotCheckedOut
      else
        let stampedCheckouts := s.checkouts.map (fun c =>
          if c.bookId == bookID && c.memberId == borrower && c.returnTime.isNone
          then { c with returnTime := some s.now } else c)
        match oldestOpenReservation s bookID with
        | some r =>
          .ok (borrower, { s with
            books := s.books.map (fun b =>
              if b.bid == bookID then { b with borrower := some r.memberId } else b),
            checkouts := stampedCheckouts ++ [⟨s.nextCheckoutId, bookID, r.memberId, s.now, none⟩],
            reservations := s.reservations.map (fun q =>
              if q.bookId == bookID && q.memberId == r.memberId
              then { q with fulfilledTime := some s.now } else q),
            nextCheckoutId := s.nextCheckoutId + 1,
            now := s.now + 1 })
        | none =>
          .ok (borrower, { s with
            books := s.books.map (fun b =>
              if b.bid == bookID then { b with available := true, borrower := none } else b),
            checkouts := stampedCheckouts,
            now := s.now + 1 })

/-- Method `Database.CancelReservation` (database.go): `DELETE FROM
reservations WHERE book_id=? AND member_id=? AND fulfilled_time IS NULL`;
error when `RowsAffected` is 0. -/
def CancelReservation (s : DBState) (bookID memberID : Nat) : Except LibError DBState :=
  let kept := s.reservations.filter (fun r => !(isOpenResFor bookID memberID r))
  if kept.length == s.reservations.length then .error .noActiveReservation
  else .ok { s with reservations := kept }

/-- Method `Database.AddBook` (database.go): `INSERT INTO books(title,
author, content)`; `available` defaults to 1 and `borrower_id` to `NULL`. -/
def AddBook (s : DBState) (title author content : String) : Nat × DBState :=
  (s.nextBookId,
   { s with
     books := s.books ++ [⟨s.nextBookId, title, author, content, true, none⟩],
     nextBookId := s.nextBookId + 1,
     now := s.now + 1 })

/-- Method `Database.AddMember` (database.go): reject a blank name, hash the
password (bcrypt is opaque here: the caller passes the resulting hash),
insert honouring the `UNIQUE` constraint on `name`. -/
def AddMember (s : DBState) (name hash : String) : Except LibError (Nat × DBState) :=
  if name.trim == "" then .error .nameEmpty
  else if s.members.any (fun m => m.name == name) then .error .nameTaken
  else
    .ok (s.nextMemberId,
      { s with
        members := s.members ++ [⟨s.nextMemberId, name, some hash⟩],
        nextMemberId := s.nextMemberId + 1,
        now := s.now + 1 })

/-- Struct `library.Book` of models.go: `BorrowerID` is a plain `int64`,
not a nullable type. -/
structure Book where
  id : Nat
  title : String
  author : String
  content : String
  available : Bool
  borrowerID : Nat
deriving Repr, DecidableEq

/-- Method `Database.GetBook` (database.go): the row projection
`SELECT id,title,author,content,available,COALESCE(borrower_id,0)
FROM books WHERE id=?`. -/
def GetBook (s : DBState) (bookID : Nat) : Option Book :=
  (findBook s bookID).map (fun b =>
    ⟨b.bid, b.title, b.author, b.content, b.available, b.borrower.getD 0⟩)

/-- Method `Database.GetAllBooks` (database.go): the same `COALESCE(borrower_id,0)`
projection over every row (rows are in `ORDER BY id`, which is insertion
order for autoincrement ids). -/
def GetAllBooks (s : DBState) : List Book :=
  s.books.map (fun b =>
    ⟨b.bid, b.title, b.author, b.content, b.available, b.borrower.getD 0⟩)

/-- The generic message `fmt.Errorf` builds for both a missing member and a
failed password comparison in `Database.AuthenticateMember`. -/
def genericAuthMessage : String :=
  "authentication failed: invalid member ID or password"

/-- Method `Database.AuthenticateMember` (database.go), with bcrypt's
`CompareHashAndPassword` abstracted as the predicate `checkPassword`.
Returns `none` on success and `some message` on failure, the message being
the `fmt.Errorf` text. -/
def AuthenticateMember (checkPassword : String → String → Bool)
    (s : DBState) (memberID : Nat) (password : String) : Option String :=
  match findMember s memberID with
  | none => some genericAuthMessage
  | some m =>
    match m.passwordHash with
    | none =>
        some ("member " ++ m.name ++ " has not set up a password yet. Please contact administrator")
    | some h =>
        if h == "" then
          some ("member " ++ m.name ++ " has not set up a password yet. Please contact administrator")
        else if checkPassword password h then none
        else some genericAuthMessage

/-- The state-changing operations of the engine, for stating reachability
and frame properties.  `applyOp` commits the new state on success and keeps
the pre-state on error (the Go methods roll the transaction back). -/
inductive Op where
  | addBook (title author content : String)
  | addMember (name hash : String)
  | checkout (bookID memberID : Nat)
  | reserve (bookID memberID : Nat)
  | ret (bookID : Nat)
  | cancel (bookID memberID : Nat)
deriving Repr, DecidableEq

def applyOp (op : Op) (s : DBState) : DBState :=
  match op with
  | .addBook t a c => (AddBook s t a c).2
  | .addMember n h =>
      match AddMember s n h with
      | .ok p => p.2
      | .error _ => s
  | .checkout b m =>
      match CheckoutBook s b m with
      | .ok s' => s'
      | .error _ => s
  | .reserve b m =>
      match ReserveBook s b m with
      | .ok s' => s'
      | .error _ => s
  | .ret b =>
      match ReturnBook s b with
      | .ok p => p.2
      | .error _ => s
  | .cancel b m =>
      match CancelReservation s b m with
      | .ok s' => s'
      | .error _ => s

/-- Running a trace of operations from a state. -/
def runFrom (s : DBState) (ops : List Op) : DBState :=
  ops.foldl (fun t op => applyOp op t) s

/-- Every state reachable from a fresh store. -/
def runOps (ops : List Op) : DBState :=
  runFrom initState ops

/-- Modelled from the spec: section 4.1 lists `ReserveBook`'s validation
"in order" — book exists, member exists, the member already holds the book
(`AlreadyCheckedOutBySelf`), a duplicate open reservation
(`DuplicateReservation`) — and only then branches on availability.  This
definition follows the spec's order and exists solely to be compared with
the source-faithful `ReserveBook` above. -/
def ReserveBookSpecOrder (s : DBState) (bookID memberID : Nat) : Except LibError DBState :=
  match findBook s bookID with
  | none => .error .bookNotFound
  | some bk =>
    match findMember s memberID with
    | none => .error .memberNotFound
    | some _ =>
      if (match bk.borrower with
          | some b => b == memberID
          | none => false) then
        .error .alreadyCheckedOutBySelf
      else if hasOpenReservation s bookID memberID then
        .error .duplicateReservation
      else if bk.available then
        .ok { s with
          books := s.books.map (fun b =>
            if b.bid == bookID then { b with available := false, borrower := some memberID } else b),
          checkouts := s.checkouts ++ [⟨s.nextCheckoutId, bookID, memberID, s.now, none⟩],
          nextCheckoutId := s.nextCheckoutId + 1,
          now := s.now + 1 }
      else
        .ok { s with
          reservations := s.reservations ++ [⟨s.nextReservationId, bookID, memberID, s.now, none⟩],
          nextReservationId := s.nextReservationId + 1,
          now := s.now + 1 }

/-- What the caller of `Database.ReserveBook` sees: the Go method returns
only `error` (`nil` on success), so the state is invisible in the return
value. -/
def ReserveBookVisible (s : DBState) (bookID memberID : Nat) : Option LibError :=
  match ReserveBook s bookID memberID with
  | .ok _ => none
  | .error e => some e

/-- Availability/borrower consistency for a list of book rows:
`available == (borrower_id == null)`. -/
def booksOk (l : List BookRow) : Prop :=
  ∀ b ∈ l, b.available = true ↔ b.borrower = none

/-- The spec's availability invariant, on a store. -/
def availInv (s : DBState) : Prop :=
  booksOk s.books

/-- Structural well-formedness that every reachable store has: the
availability invariant, book ids below the autoincrement counter, and
pairwise-distinct book ids (`id INTEGER PRIMARY KEY AUTOINCREMENT`). -/
def StoreInv (s : DBState) : Prop :=
  booksOk s.books ∧
  (∀ b ∈ s.books, b.bid < s.nextBookId) ∧
  s.books.Pairwise (fun x y => x.bid ≠ y.bid)

/-- How many open reservations a (book, member) pair has. -/
def openCount (rs : List ReservationRow) (bookID memberID : Nat) : Nat :=
  (rs.filter (isOpenResFor bookID memberID)).length

/-- The spec's reservation invariant: at most one open reservation per
(book, member) pair. -/
def openResInv (s : DBState) : Prop :=
  ∀ bookID memberID, openCount s.reservations bookID memberID ≤ 1

/-- Whether an operation addresses the given book id (used to state frame
properties about "operations on other books"). -/
def opTouches (op : Op) (bookID : Nat) : Bool :=
  match op with
  | .addBook _ _ _ => false
  | .addMember _ _ => false
  | .checkout b _ => b == bookID
  | .reserve b _ => b == bookID
  | .ret b => b == bookID
  | .cancel b _ => b == bookID

/-- A trace of operations none of which addresses the given book. -/
def avoidsBook (ops : List Op) (bookID : Nat) : Prop :=
  ∀ op ∈ ops, opTouches op bookID = false

/-- Store used to refute the spec ordering of `ReserveBook` (C2): book 1 is
available while member 1 still has an open reservation for it, so the
spec's order answers `DuplicateReservation` where the code checks the book
out. -/
def c2State : DBState :=
  ⟨[⟨1, "t", "a", "c", true, none⟩], [⟨1, "m", none⟩], [],
   [⟨1, 1, 1, 0, none⟩], 2, 2, 1, 2, 1⟩

/-- Store used to refute the double-return claim (C5): member 1 holds book
1 and member 2 waits in the reservation queue. -/
def c5State : DBState :=
  ⟨[⟨1, "t", "a", "c", false, some 1⟩],
   [⟨1, "m", none⟩, ⟨2, "n", none⟩],
   [⟨1, 1, 1, 0, none⟩],
   [⟨1, 1, 2, 1, none⟩], 2, 3, 2, 2, 2⟩

/-- Store exhibiting the missing `fulfilled_time IS NULL` guard of
`ReturnBook`'s reservation update (C9): member 2 has an old reservation for
book 1 that was already fulfilled at time 5, plus a fresh open one; member
3 currently holds the book. -/
def c9State : DBState :=
  ⟨[⟨1, "t", "a", "c", false, some 3⟩],
   [⟨2, "m", none⟩, ⟨3, "n", none⟩],
   [⟨2, 1, 3, 10, none⟩],
   [⟨1, 1, 2, 0, some 5⟩, ⟨2, 1, 2, 10, none⟩], 2, 4, 3, 3, 20⟩

/-- Store whose book 1 has no borrower (C10). -/
def c10StateNoBorrower : DBState :=
  ⟨[⟨1, "t", "a", "c", true, none⟩], [], [], [], 2, 1, 1, 1, 0⟩

/-- Same store except book 1's borrower column holds the id 0 (C10). -/
def c10StateZeroBorrower : DBState :=
  ⟨[⟨1, "t", "a", "c", true, some 0⟩], [], [], [], 2, 1, 1, 1, 0⟩

/-- Store with book 1 available (C7): reserving it checks it out. -/
def c7AvailState : DBState :=
  ⟨[⟨1, "t", "a", "c", true, none⟩], [⟨1, "m", none⟩, ⟨2, "n", none⟩],
   [], [], 2, 3, 1, 1, 0⟩

/-- Store with book 1 held by member 2 (C7): member 1's reservation is
queued. -/
def c7QueueState : DBState :=
  ⟨[⟨1, "t", "a", "c", false, some 2⟩], [⟨1, "m", none⟩, ⟨2, "n", none⟩],
   [⟨1, 1, 2, 0, none⟩], [], 2, 3, 2, 1, 1⟩

/-- Store used by several witnesses: book 1 held by member 4, members 1–4
registered, members 1, 2, 3 queued in that order. -/
def witState : DBState :=
  ⟨[⟨1, "t", "a", "c", false, some 4⟩],
   [⟨1, "ma", some "h1"⟩, ⟨2, "mb", some "h2"⟩, ⟨3, "mc", none⟩, ⟨4, "md", some "h4"⟩],
   [⟨1, 1, 4, 0, none⟩],
   [⟨1, 1, 1, 1, none⟩, ⟨2, 1, 2, 2, none⟩, ⟨3, 1, 3, 3, none⟩], 2, 5, 2, 4, 4⟩

/-- The state `ReserveBook` commits on its queue path: one reservation row
appended, stamped with the current time. -/
def queuedState (s : DBState) (bookID memberID : Nat) : DBState :=
  { s with
    reservations := s.reservations ++ [⟨s.nextReservationId, bookID, memberID, s.now, none⟩],
    nextReservationId := s.nextReservationId + 1,
    now := s.now + 1 }

/-- Store used by the FIFO witness: book 1 held by member 4, members 1–4
registered, no reservations yet. -/
def c4State : DBState :=
  ⟨[⟨1, "t", "a", "c", false, some 4⟩],
   [⟨1, "ma", none⟩, ⟨2, "mb", none⟩, ⟨3, "mc", none⟩, ⟨4, "md", none⟩],
   [⟨1, 1, 4, 0, none⟩], [], 2, 5, 2, 1, 1⟩

deriving instance DecidableEq for Except

/-- C2 (counterexample): on a store where book 1 is available while member
1 still has an open reservation for it, the spec's validation order answers
`DuplicateReservation`, but the source's `ReserveBook` branches on
availability first and checks the book out, reporting success — so the
claimed order (availability used only after the self-checkout and
duplicate-reservation checks) is false of the code. -/
theorem reserveBook_order_cex :
    ReserveBookSpecOrder c2State 1 1 = .error .duplicateReservation ∧
    ReserveBookVisible c2State 1 1 = none ∧
    (applyOp (.reserve 1 1) c2State).books =
      [⟨1, "t", "a", "c", false, some 1⟩] := by
  decide

/-- C5 (counterexample): with member 2 queued on book 1, the second of two
back-to-back `ReturnBook` calls does not fail with `BookNotCheckedOut`; it
succeeds again, returning the book from member 2 (whom the first call had
made the borrower). -/
theorem returnBook_twice_cex :
    ReturnBook c5State 1 = .ok (1, applyOp (.ret 1) c5State) ∧
    ReturnBook (applyOp (.ret 1) c5State) 1 =
      .ok (2, applyOp (.ret 1) (applyOp (.ret 1) c5State)) := by
  decide

/-- C7 (counterexample): `Database.ReserveBook` returns only `error`, and
the value the caller sees is identically `nil` (here `none`) both when the
book was available and got checked out immediately and when a reservation
was queued — the ImmediateCheckout/Queued outcome is not reported in a
caller-distinguishable way by the method. -/
theorem reserveBook_outcome_cex :
    ReserveBookVisible c7AvailState 1 1 = none ∧
    ReserveBookVisible c7QueueState 1 1 = none ∧
    (GetBook (applyOp (.reserve 1 1) c7AvailState) 1).map Book.borrowerID = some 1 ∧
    (applyOp (.reserve 1 1) c7AvailState).reservations.length = 0 ∧
    (GetBook (applyOp (.reserve 1 1) c7QueueState) 1).map Book.borrowerID = some 2 ∧
    (applyOp (.reserve 1 1) c7QueueState).reservations.length = 1 := by
  decide

/-- C9 (code bug): `ReturnBook`'s reservation update lacks the
`fulfilled_time IS NULL` guard, so fulfilling member 2's fresh reservation
also overwrites the `fulfilled_time` (5) of member 2's already-fulfilled
historical reservation for the same book with the current time (20). -/
theorem returnBook_restamps_fulfilled_bug :
    ReturnBook c9State 1 = .ok (3, applyOp (.ret 1) c9State) ∧
    (applyOp (.ret 1) c9State).reservations =
      [⟨1, 1, 2, 0, some 20⟩, ⟨2, 1, 2, 10, some 20⟩] := by
  decide

/-- C10 (counterexample): two stores that differ only in whether book 1's
borrower column is `NULL` or holds the id 0 are mapped by `GetBook` and
`GetAllBooks` to identical results, because the query projects
`COALESCE(borrower_id,0)` into the non-nullable `BorrowerID int64` — "no
borrower" is not distinguishable from "borrower with id 0" at the public
data-model boundary. -/
theorem getBook_zero_sentinel_cex :
    c10StateNoBorrower ≠ c10StateZeroBorrower ∧
    GetBook c10StateNoBorrower 1 = GetBook c10StateZeroBorrower 1 ∧
    GetAllBooks c10StateNoBorrower = GetAllBooks c10StateZeroBorrower := by
  decide

theorem find?_map_bid (l : List BookRow) (f : BookRow → BookRow) (k : Nat)
    (hf : ∀ b, (f b).bid = b.bid) :
    (l.map f).find? (fun b => b.bid == k) = (l.find? (fun b => b.bid == k)).map f := by
  induction l with
  | nil => rfl
  | cons b l ih =>
    by_cases hb : b.bid = k
    · simp [List.find?_cons, hf, hb]
    · simp [List.find?_cons, hf, hb, ih]

/-- C8: `AuthenticateMember` answers an unknown member id with exactly the
same generic message it gives an existing, credentialed member whose
password fails the check, so the caller-visible error carries no signal
about whether the member id exists. -/
theorem authenticate_uniform_error
    (cp : String → String → Bool) (s : DBState)
    (badID goodID : Nat) (pw pw' : String) (m : MemberRow) (h : String)
    (hbad : findMember s badID = none)
    (hgood : findMember s goodID = some m)
    (hhash : m.passwordHash = some h)
    (hne : h ≠ "")
    (hwrong : cp pw' h = false) :
    AuthenticateMember cp s badID pw = some genericAuthMessage ∧
    AuthenticateMember cp s goodID pw' = AuthenticateMember cp s badID pw := by
  refine ⟨?_, ?_⟩
  · simp [AuthenticateMember, hbad]
  · simp [AuthenticateMember, hbad, hgood, hhash, hne, hwrong]

theorem authenticate_uniform_error_witness :
    AuthenticateMember (fun _ _ => false) witState 99 "x" = some genericAuthMessage ∧
    AuthenticateMember (fun _ _ => false) witState 1 "y" =
      AuthenticateMember (fun _ _ => false) witState 99 "x" :=
  authenticate_uniform_error (fun _ _ => false) witState 99 1 "x" "y"
    ⟨1, "ma", some "h1"⟩ "h1" (by decide) (by decide) rfl (by decide) rfl

/-- C10 (amended): the public boundary keeps the zero-id sentinel: whenever
a book's borrower column is `NULL` or holds id 0, `GetBook` projects the
same `BorrowerID` 0 (`COALESCE(borrower_id,0)` into a plain `int64`); the
two states are told apart only because autoincrement member ids start at
1, never by the representation. -/
theorem getBook_coalesce_amended
    (s : DBState) (bookID : Nat) (bk : BookRow)
    (hbk : findBook s bookID = some bk)
    (hb : bk.borrower = none ∨ bk.borrower = some 0) :
    (GetBook s bookID).map Book.borrowerID = some 0 := by
  rcases hb with h | h <;> simp [GetBook, hbk, h]

theorem getBook_coalesce_amended_witness :
    (GetBook c10StateNoBorrower 1).map Book.borrowerID = some 0 :=
  getBook_coalesce_amended c10StateNoBorrower 1 ⟨1, "t", "a", "c", true, none⟩
    (by decide) (Or.inl rfl)

theorem reserveBook_available_eq_checkout
    (s : DBState) (bookID memberID : Nat) (bk : BookRow) (mm : MemberRow)
    (hbk : findBook s bookID = some bk) (hav : bk.available = true)
    (hmm : findMember s memberID = some mm) :
    ReserveBook s bookID memberID = CheckoutBook s bookID memberID ∧
    ReserveBook s bookID memberID = .ok { s with
      books := s.books.map (fun b =>
        if b.bid == bookID then { b with available := false, borrower := some memberID } else b),
      checkouts := s.checkouts ++ [⟨s.nextCheckoutId, bookID, memberID, s.now, none⟩],
      nextCheckoutId := s.nextCheckoutId + 1,
      now := s.now + 1 } ∧
    (∀ s', ReserveBook s bookID memberID = .ok s' → s'.reservations = s.reservations) := by
  have h1 : ReserveBook s bookID memberID = .ok { s with
      books := s.books.map (fun b =>
        if b.bid == bookID then { b with available := false, borrower := some memberID } else b),
      checkouts := s.checkouts ++ [⟨s.nextCheckoutId, bookID, memberID, s.now, none⟩],
      nextCheckoutId := s.nextCheckoutId + 1,
      now := s.now + 1 } := by
    simp [ReserveBook, hbk, hmm, hav]
  have h2 : CheckoutBook s bookID memberID = .ok { s with
      books := s.books.map (fun b =>
        if b.bid == bookID then { b with available := false, borrower := some memberID } else b),
      checkouts := s.checkouts ++ [⟨s.nextCheckoutId, bookID, memberID, s.now, none⟩],
      nextCheckoutId := s.nextCheckoutId + 1,
      now := s.now + 1 } := by
    simp [CheckoutBook, hbk, hmm, hav]
  refine ⟨h1.trans h2.symm, h1, ?_⟩
  intro s' hs'
  rw [h1] at hs'
  cases hs'
  rfl

/-- C7 (amended): on an available book (and existing member) `ReserveBook`
is extensionally equal to `CheckoutBook` — book made unavailable with the
member as borrower, one new open checkout row, no reservation row — but
its return value reports only success/failure; the ImmediateCheckout vs
Queued outcome is not part of it. -/
theorem reserveBook_available_amended
    (s : DBState) (bookID memberID : Nat) (bk : BookRow) (mm : MemberRow)
    (hbk : findBook s bookID = some bk) (hav : bk.available = true)
    (hmm : findMember s memberID = some mm) :
    ReserveBook s bookID memberID = CheckoutBook s bookID memberID ∧
    ReserveBook s bookID memberID = .ok { s with
      books := s.books.map (fun b =>
        if b.bid == bookID then { b with available := false, borrower := some memberID } else b),
      checkouts := s.checkouts ++ [⟨s.nextCheckoutId, bookID, memberID, s.now, none⟩],
      nextCheckoutId := s.nextCheckoutId + 1,
      now := s.now + 1 } ∧
    (∀ s', ReserveBook s bookID memberID = .ok s' → s'.reservations = s.reservations) :=
  reserveBook_available_eq_checkout s bookID memberID bk mm hbk hav hmm

theorem reserveBook_available_amended_witness :
    ReserveBook c7AvailState 1 1 = CheckoutBook c7AvailState 1 1 :=
  (reserveBook_available_amended c7AvailState 1 1 ⟨1, "t", "a", "c", true, none⟩
    ⟨1, "m", none⟩ (by decide) rfl (by decide)).1

/-- C2 (amended): `ReserveBook` validates book existence then member
existence, and then branches on availability at once: an available book is
checked out immediately, skipping the self-checkout and duplicate
reservation checks; only when the book is unavailable does it reject the
current borrower (`AlreadyCheckedOutBySelf`), then a duplicate open
reservation (`DuplicateReservation`), and otherwise queue a new
reservation. -/
theorem reserveBook_actual_order_amended
    (s : DBState) (bookID memberID : Nat) (bk : BookRow) (mm : MemberRow)
    (hbk : findBook s bookID = some bk) (hmm : findMember s memberID = some mm) :
    (bk.available = true → ReserveBook s bookID memberID = CheckoutBook s bookID memberID) ∧
    (bk.available = false → bk.borrower = some memberID →
      ReserveBook s bookID memberID = .error .alreadyCheckedOutBySelf) ∧
    (bk.available = false → bk.borrower ≠ some memberID →
      hasOpenReservation s bookID memberID = true →
      ReserveBook s bookID memberID = .error .duplicateReservation) ∧
    (bk.available = false → bk.borrower ≠ some memberID →
      hasOpenReservation s bookID memberID = false →
      ReserveBook s bookID memberID = .ok { s with
        reservations := s.reservations ++ [⟨s.nextReservationId, bookID, memberID, s.now, none⟩],
        nextReservationId := s.nextReservationId + 1,
        now := s.now + 1 }) := by
  refine ⟨?_, ?_, ?_, ?_⟩
  · intro hav
    exact (reserveBook_available_eq_checkout s bookID memberID bk mm hbk hav hmm).1
  · intro hav hbor
    simp [ReserveBook, hbk, hmm, hav, hbor]
  · intro hav hbor hdup
    have hb : (match bk.borrower with
               | some b => b == memberID
               | none => false) = false := by
      cases hx : bk.borrower with
      | none => rfl
      | some v =>
        simp only [beq_eq_false_iff_ne, ne_eq]
        intro hv
        exact hbor (by rw [hx, hv])
    simp [ReserveBook, hbk, hmm, hav, hb, hdup]
  · intro hav hbor hdup
    have hb : (match bk.borrower with
               | some b => b == memberID
               | none => false) = false := by
      cases hx : bk.borrower with
      | none => rfl
      | some v =>
        simp only [beq_eq_false_iff_ne, ne_eq]
        intro hv
        exact hbor (by rw [hx, hv])
    simp [ReserveBook, hbk, hmm, hav, hb, hdup]

theorem reserveBook_actual_order_amended_witness :
    ReserveBook c7QueueState 1 1 = .ok { c7QueueState with
      reservations := c7QueueState.reservations ++ [⟨1, 1, 1, 1, none⟩],
      nextReservationId := 2,
      now := 2 } :=
  (reserveBook_actual_order_amended c7QueueState 1 1 ⟨1, "t", "a", "c", false, some 2⟩
    ⟨1, "m", none⟩ (by decide) (by decide)).2.2.2 rfl (by decide) (by decide)

theorem returnBook_nullScan (t : DBState) (bookID : Nat) (bk : BookRow)
    (h : findBook t bookID = some bk) (hb : bk.borrower = none) :
    ReturnBook t bookID = .error .nullScan := by
  simp [ReturnBook, h, hb]

theorem applyOp_ret_error (t : DBState) (bookID : Nat) (e : LibError)
    (h : ReturnBook t bookID = .error e) : applyOp (.ret bookID) t = t := by
  simp [applyOp, h]

/-- C5 (amended): when the returned book has no open reservation, the first
`ReturnBook` succeeds and makes the book available with no borrower, and an
immediate second call fails leaving the store untouched — but the failure
is the NULL-borrower scan error (`borrower_id` is read into a plain
`int64`), not the `BookNotCheckedOut` message; and when open reservations
exist the second call does not fail at all (see the counterexample). -/
theorem returnBook_no_queue_amended
    (s : DBState) (bookID : Nat) (bk : BookRow) (m : Nat)
    (hbk : findBook s bookID = some bk) (hav : bk.available = false)
    (hbor : bk.borrower = some m) (hq : openResFor s bookID = []) :
    ∃ s', ReturnBook s bookID = .ok (m, s') ∧
      findBook s' bookID = some { bk with available := true, borrower := none } ∧
      ReturnBook s' bookID = .error .nullScan ∧
      ReturnBook s' bookID ≠ .error .bookNotCheckedOut ∧
      applyOp (.ret bookID) s' = s' := by
  have holdest : oldestOpenReservation s bookID = none := by
    unfold oldestOpenReservation
    rw [hq]
    rfl
  have hbid : bk.bid = bookID := by
    simpa using List.find?_some hbk
  have hmain : ReturnBook s bookID = .ok (m, { s with
      books := s.books.map (fun b =>
        if b.bid == bookID then { b with available := true, borrower := none } else b),
      checkouts := s.checkouts.map (fun c =>
        if c.bookId == bookID && c.memberId == m && c.returnTime.isNone
        then { c with returnTime := some s.now } else c),
      now := s.now + 1 }) := by
    simp [ReturnBook, hbk, hbor, hav, holdest]
  have hfind2 : findBook { s with
      books := s.books.map (fun b =>
        if b.bid == bookID then { b with available := true, borrower := none } else b),
      checkouts := s.checkouts.map (fun c =>
        if c.bookId == bookID && c.memberId == m && c.returnTime.isNone
        then { c with returnTime := some s.now } else c),
      now := s.now + 1 } bookID = some { bk with available := true, borrower := none } := by
    show ((s.books.map _).find? _) = _
    rw [find?_map_bid _ _ _ (by
      intro b
      by_cases hb : b.bid = bookID <;> simp [hb])]
    have hfind : s.books.find? (fun b => b.bid == bookID) = some bk := hbk
    rw [hfind]
    simp [hbid]
  have hnull : ReturnBook { s with
      books := s.books.map (fun b =>
        if b.bid == bookID then { b with available := true, borrower := none } else b),
      checkouts := s.checkouts.map (fun c =>
        if c.bookId == bookID && c.memberId == m && c.returnTime.isNone
        then { c with returnTime := some s.now } else c),
      now := s.now + 1 } bookID = .error .nullScan :=
    returnBook_nullScan _ _ _ hfind2 rfl
  refine ⟨_, hmain, hfind2, hnull, ?_, applyOp_ret_error _ _ _ hnull⟩
  rw [hnull]
  simp

theorem returnBook_no_queue_amended_witness :
    ∃ s', ReturnBook c7QueueState 1 = .ok (2, s') ∧
      findBook s' 1 = some ⟨1, "t", "a", "c", true, none⟩ ∧
      ReturnBook s' 1 = .error .nullScan ∧
      ReturnBook s' 1 ≠ .error .bookNotCheckedOut ∧
      applyOp (.ret 1) s' = s' :=
  returnBook_no_queue_amended c7QueueState 1 ⟨1, "t", "a", "c", false, some 2⟩ 2
    (by decide) rfl rfl (by decide)

theorem foldlMin_mem (l : List ReservationRow) (acc : Option ReservationRow)
    (r : ReservationRow)
    (h : l.foldl (fun acc r =>
        match acc with
        | none => some r
        | some best =>
            if r.reservationTime < best.reservationTime then some r else some best)
      acc = some r) :
    acc = some r ∨ r ∈ l := by
  induction l generalizing acc with
  | nil =>
    exact Or.inl h
  | cons x l ih =>
    simp only [List.foldl_cons] at h
    rcases ih _ h with hacc | hmem
    · cases acc with
      | none =>
        simp only [] at hacc
        cases hacc
        exact Or.inr (List.mem_cons_self _ _)
      | some best =>
        by_cases hlt : x.reservationTime < best.reservationTime
        · simp only [hlt, if_pos] at hacc
          cases hacc
          exact Or.inr (List.mem_cons_self _ _)
        · simp only [hlt, if_neg, not_false_iff] at hacc
          exact Or.inl hacc
    · exact Or.inr (List.mem_cons_of_mem _ hmem)

theorem foldlMin_le (l : List ReservationRow) (acc : Option ReservationRow)
    (r : ReservationRow)
    (h : l.foldl (fun acc r =>
        match acc with
        | none => some r
        | some best =>
            if r.reservationTime < best.reservationTime then some r else some best)
      acc = some r) :
    (∀ a, acc = some a → r.reservationTime ≤ a.reservationTime) ∧
    (∀ r' ∈ l, r.reservationTime ≤ r'.reservationTime) := by
  induction l generalizing acc with
  | nil =>
    constructor
    · intro a ha
      simp only [List.foldl_nil] at h
      rw [ha] at h
      cases h
      exact Nat.le_refl _
    · simp
  | cons x l ih =>
    simp only [List.foldl_cons] at h
    obtain ⟨h1, h2⟩ := ih _ h
    cases acc with
    | none =>
      have hx : r.reservationTime ≤ x.reservationTime := h1 x rfl
      refine ⟨fun a ha => Option.noConfusion ha, fun r' hr' => ?_⟩
      rcases List.mem_cons.1 hr' with hr' | hr'
      · rw [hr']; exact hx
      · exact h2 r' hr'
    | some best =>
      by_cases hlt : x.reservationTime < best.reservationTime
      · simp only [hlt, if_pos] at h1
        have hx : r.reservationTime ≤ x.reservationTime := h1 x rfl
        refine ⟨fun a ha => ?_, fun r' hr' => ?_⟩
        · cases ha
          exact Nat.le_trans hx (Nat.le_of_lt hlt)
        · rcases List.mem_cons.1 hr' with hr' | hr'
          · rw [hr']; exact hx
          · exact h2 r' hr'
      · simp only [hlt, if_neg, not_false_iff] at h1
        have hbest : r.reservationTime ≤ best.reservationTime := h1 best rfl
        refine ⟨fun a ha => ?_, fun r' hr' => ?_⟩
        · cases ha
          exact hbest
        · rcases List.mem_cons.1 hr' with hr' | hr'
          · rw [hr']
            exact Nat.le_trans hbest (Nat.le_of_not_lt hlt)
          · exact h2 r' hr'

theorem oldestOpenReservation_spec (s : DBState) (bookID : Nat) (r : ReservationRow)
    (h : oldestOpenReservation s bookID = some r) :
    r ∈ openResFor s bookID ∧
    ∀ r' ∈ openResFor s bookID, r.reservationTime ≤ r'.reservationTime := by
  unfold oldestOpenReservation at h
  refine ⟨?_, (foldlMin_le _ _ _ h).2⟩
  rcases foldlMin_mem _ _ _ h with hacc | hmem
  · cases hacc
  · exact hmem

/-- C1: for a book with an open checkout (unavailable, borrower recorded),
`ReturnBook` succeeds returning the borrower's member id, stamps the end
time on the borrower's open checkout rows; when an open reservation exists
it closes the oldest one (least creation timestamp), opens a new checkout
for that reservation's member and makes that member the borrower while the
book stays unavailable; with no open reservation it makes the book
available and clears the borrower. -/
theorem returnBook_spec
    (s : DBState) (bookID : Nat) (bk : BookRow) (m : Nat)
    (hbk : findBook s bookID = some bk) (hav : bk.available = false)
    (hbor : bk.borrower = some m) :
    ∃ s', ReturnBook s bookID = .ok (m, s') ∧
      (∀ c ∈ s.checkouts, c.bookId = bookID → c.memberId = m → c.returnTime = none →
        { c with returnTime := some s.now } ∈ s'.checkouts) ∧
      (match oldestOpenReservation s bookID with
       | some r =>
          r ∈ openResFor s bookID ∧
          (∀ r' ∈ openResFor s bookID, r.reservationTime ≤ r'.reservationTime) ∧
          { r with fulfilledTime := some s.now } ∈ s'.reservations ∧
          (⟨s.nextCheckoutId, bookID, r.memberId, s.now, none⟩ : CheckoutRow) ∈ s'.checkouts ∧
          (findBook s' bookID).map BookRow.borrower = some (some r.memberId) ∧
          (findBook s' bookID).map BookRow.available = some false
       | none =>
          (findBook s' bookID).map BookRow.available = some true ∧
          (findBook s' bookID).map BookRow.borrower = some none) := by
  have hbid : bk.bid = bookID := by
    simpa using List.find?_some hbk
  cases holdest : oldestOpenReservation s bookID with
  | none =>
    refine ⟨{ s with
        books := s.books.map (fun b =>
          if b.bid == bookID then { b with available := true, borrower := none } else b),
        checkouts := s.checkouts.map (fun c =>
          if c.bookId == bookID && c.memberId == m && c.returnTime.isNone
          then { c with returnTime := some s.now } else c),
        now := s.now + 1 }, ?_, ?_, ?_⟩
    · simp [ReturnBook, hbk, hbor, hav, holdest]
    · intro c hc hc1 hc2 hc3
      refine List.mem_map.2 ⟨c, hc, ?_⟩
      simp [hc1, hc2, hc3]
    · simp only []
      have hfind2 : findBook { s with
          books := s.books.map (fun b =>
            if b.bid == bookID then { b with available := true, borrower := none } else b),
          checkouts := s.checkouts.map (fun c =>
            if c.bookId == bookID && c.memberId == m && c.returnTime.isNone
            then { c with returnTime := some s.now } else c),
          now := s.now + 1 } bookID = some { bk with available := true, borrower := none } := by
        show ((s.books.map _).find? _) = _
        rw [find?_map_bid _ _ _ (by
          intro b
          by_cases hb : b.bid = bookID <;> simp [hb])]
        have hfind : s.books.find? (fun b => b.bid == bookID) = some bk := hbk
        rw [hfind]
        simp [hbid]
      rw [hfind2]
      simp
  | some r =>
    obtain ⟨hrmem, hrmin⟩ := oldestOpenReservation_spec s bookID r holdest
    have hrbook : r.bookId = bookID := by
      have := (List.mem_filter.1 hrmem).2
      simp at this
      exact this.1
    refine ⟨{ s with
        books := s.books.map (fun b =>
          if b.bid == bookID then { b with borrower := some r.memberId } else b),
        checkouts := (s.checkouts.map (fun c =>
          if c.bookId == bookID && c.memberId == m && c.returnTime.isNone
          then { c with returnTime := some s.now } else c)) ++
          [⟨s.nextCheckoutId, bookID, r.memberId, s.now, none⟩],
        reservations := s.reservations.map (fun q =>
          if q.bookId == bookID && q.memberId == r.memberId
          then { q with fulfilledTime := some s.now } else q),
        nextCheckoutId := s.nextCheckoutId + 1,
        now := s.now + 1 }, ?_, ?_, ?_⟩
    · simp [ReturnBook, hbk, hbor, hav, holdest]
    · intro c hc hc1 hc2 hc3
      refine List.mem_append_left _ (List.mem_map.2 ⟨c, hc, ?_⟩)
      simp [hc1, hc2, hc3]
    · have hfind2 : findBook { s with
          books := s.books.map (fun b =>
            if b.bid == bookID then { b with borrower := some r.memberId } else b),
          checkouts := (s.checkouts.map (fun c =>
            if c.bookId == bookID && c.memberId == m && c.returnTime.isNone
            then { c with returnTime := some s.now } else c)) ++
            [⟨s.nextCheckoutId, bookID, r.memberId, s.now, none⟩],
          reservations := s.reservations.map (fun q =>
            if q.bookId == bookID && q.memberId == r.memberId
            then { q with fulfilledTime := some s.now } else q),
          nextCheckoutId := s.nextCheckoutId + 1,
          now := s.now + 1 } bookID = some { bk with borrower := some r.memberId } := by
        show ((s.books.map _).find? _) = _
        rw [find?_map_bid _ _ _ (by
          intro b
          by_cases hb : b.bid = bookID <;> simp [hb])]
        have hfind : s.books.find? (fun b => b.bid == bookID) = some bk := hbk
        rw [hfind]
        simp [hbid]
      refine ⟨hrmem, hrmin, ?_, ?_, ?_, ?_⟩
      · refine List.mem_map.2 ⟨r, (List.mem_filter.1 hrmem).1, ?_⟩
        simp [hrbook]
      · exact List.mem_append_right _ (List.mem_cons_self _ _)
      · rw [hfind2]
        rfl
      · rw [hfind2]
        simpa using hav

theorem returnBook_spec_witness : (ReturnBook witState 1).isOk = true := by
  obtain ⟨s', h, -⟩ := returnBook_spec witState 1 ⟨1, "t", "a", "c", false, some 4⟩ 4
    (by decide) rfl rfl
  rw [h]
  rfl

theorem mem_eq_of_find?_pairwise (l : List BookRow) (k : Nat) (bk b : BookRow)
    (hp : l.Pairwise (fun x y => x.bid ≠ y.bid))
    (hf : l.find? (fun x => x.bid == k) = some bk)
    (hb : b ∈ l) (hbid : b.bid = k) : b = bk := by
  induction l with
  | nil => cases hb
  | cons a l ih =>
    rw [List.pairwise_cons] at hp
    by_cases ha : a.bid = k
    · rw [List.find?_cons_of_pos _ (by simp [ha])] at hf
      cases hf
      rcases List.mem_cons.1 hb with hb | hb
      · exact hb
      · exact absurd (hbid.trans ha.symm) (hp.1 b hb).symm
    · rw [List.find?_cons_of_neg _ (by simp [ha])] at hf
      rcases List.mem_cons.1 hb with hb | hb
      · exact absurd (hb ▸ hbid) ha
      · exact ih hp.2 hf hb

theorem booksInv_map (l : List BookRow) (n : Nat) (f : BookRow → BookRow)
    (hbid : ∀ x, (f x).bid = x.bid)
    (hok : ∀ x ∈ l, (x.available = true ↔ x.borrower = none) →
      ((f x).available = true ↔ (f x).borrower = none))
    (h1 : booksOk l) (h2 : ∀ b ∈ l, b.bid < n)
    (h3 : l.Pairwise (fun x y => x.bid ≠ y.bid)) :
    booksOk (l.map f) ∧ (∀ b ∈ l.map f, b.bid < n) ∧
      (l.map f).Pairwise (fun x y => x.bid ≠ y.bid) := by
  refine ⟨?_, ?_, ?_⟩
  · intro b hb
    rcases List.mem_map.1 hb with ⟨a, ha, rfl⟩
    exact hok a ha (h1 a ha)
  · intro b hb
    rcases List.mem_map.1 hb with ⟨a, ha, rfl⟩
    rw [hbid]
    exact h2 a ha
  · rw [List.pairwise_map]
    refine h3.imp ?_
    intro a b hab
    rw [hbid, hbid]
    exact hab

theorem booksInv_append (l : List BookRow) (n : Nat) (new : BookRow)
    (hnew : new.available = true ↔ new.borrower = none) (hbidnew : new.bid = n)
    (h1 : booksOk l) (h2 : ∀ b ∈ l, b.bid < n)
    (h3 : l.Pairwise (fun x y => x.bid ≠ y.bid)) :
    booksOk (l ++ [new]) ∧ (∀ b ∈ l ++ [new], b.bid < n + 1) ∧
      (l ++ [new]).Pairwise (fun x y => x.bid ≠ y.bid) := by
  refine ⟨?_, ?_, ?_⟩
  · intro b hb
    rcases List.mem_append.1 hb with hb | hb
    · exact h1 b hb
    · rcases List.mem_singleton.1 hb with rfl
      exact hnew
  · intro b hb
    rcases List.mem_append.1 hb with hb | hb
    · exact Nat.lt_trans (h2 b hb) (Nat.lt_succ_self n)
    · rcases List.mem_singleton.1 hb with rfl
      rw [hbidnew]
      exact Nat.lt_succ_self n
  · rw [List.pairwise_append]
    refine ⟨h3, List.pairwise_singleton _ _, ?_⟩
    intro a ha b hb
    rcases List.mem_singleton.1 hb with rfl
    rw [hbidnew]
    exact Nat.ne_of_lt (h2 a ha)

theorem length_filter_map_le {α : Type} (l : List α) (f : α → α) (q : α → Bool)
    (hq : ∀ x, q (f x) = true → f x = x) :
    ((l.map f).filter q).length ≤ (l.filter q).length := by
  induction l with
  | nil => simp
  | cons x l ih =>
    simp only [List.map_cons, List.filter_cons]
    cases hx : q (f x) with
    | true =>
      have hfx := hq x hx
      rw [hfx] at hx ⊢
      rw [hx]
      simpa using ih
    | false =>
      cases hqx : q x with
      | true => simpa using Nat.le_trans ih (Nat.le_succ _)
      | false => simpa using ih

theorem length_filter_filter_le {α : Type} (l : List α) (keep q : α → Bool) :
    ((l.filter keep).filter q).length ≤ (l.filter q).length :=
  List.Sublist.length_le (List.Sublist.filter q (List.filter_sublist l))

theorem openCount_append (l : List ReservationRow) (r : ReservationRow)
    (bookID memberID : Nat) :
    openCount (l ++ [r]) bookID memberID =
      openCount l bookID memberID +
        (if isOpenResFor bookID memberID r then 1 else 0) := by
  unfold openCount
  rw [List.filter_append]
  cases hr : isOpenResFor bookID memberID r <;> simp [List.filter_cons, hr]

theorem openCount_zero_of_not_hasOpen (s : DBState) (bookID memberID : Nat)
    (h : hasOpenReservation s bookID memberID = false) :
    openCount s.reservations bookID memberID = 0 := by
  unfold hasOpenReservation at h
  unfold openCount
  rw [List.length_eq_zero, List.filter_eq_nil_iff]
  intro a ha
  rw [List.any_eq_false] at h
  simpa using h a ha

theorem storeInv_applyOp (op : Op) (s : DBState) (h : StoreInv s) :
    StoreInv (applyOp op s) := by
  obtain ⟨h1, h2, h3⟩ := h
  cases op with
  | addBook t a c =>
    simp only [applyOp, AddBook]
    exact booksInv_append s.books s.nextBookId
      ⟨s.nextBookId, t, a, c, true, none⟩ (by simp) rfl h1 h2 h3
  | addMember n hsh =>
    simp only [applyOp]
    cases hres : AddMember s n hsh with
    | error e => exact ⟨h1, h2, h3⟩
    | ok p =>
      show StoreInv p.2
      unfold AddMember at hres
      split at hres
      · cases hres
      · split at hres
        · cases hres
        · cases hres
          exact ⟨h1, h2, h3⟩
  | checkout b m =>
    simp only [applyOp]
    cases hres : CheckoutBook s b m with
    | error e => exact ⟨h1, h2, h3⟩
    | ok s' =>
      show StoreInv s'
      unfold CheckoutBook at hres
      split at hres
      · cases hres
      split at hres
      · cases hres
      split at hres
      · cases hres
      cases hres
      exact booksInv_map s.books s.nextBookId _
        (fun x => by by_cases hx : x.bid = b <;> simp [hx])
        (fun x hx hiff => by by_cases hxx : x.bid = b <;> simp [hxx, hiff])
        h1 h2 h3
  | reserve b m =>
    simp only [applyOp]
    cases hres : ReserveBook s b m with
    | error e => exact ⟨h1, h2, h3⟩
    | ok s' =>
      show StoreInv s'
      unfold ReserveBook at hres
      split at hres
      · cases hres
      split at hres
      · cases hres
      split at hres
      · cases hres
        exact booksInv_map s.books s.nextBookId _
          (fun x => by by_cases hx : x.bid = b <;> simp [hx])
          (fun x hx hiff => by by_cases hxx : x.bid = b <;> simp [hxx, hiff])
          h1 h2 h3
      · split at hres
        · cases hres
        · split at hres
          · cases hres
          · cases hres
            exact ⟨h1, h2, h3⟩
  | ret b =>
    simp only [applyOp]
    cases hres : ReturnBook s b with
    | error e => exact ⟨h1, h2, h3⟩
    | ok p =>
      show StoreInv p.2
      unfold ReturnBook at hres
      simp only [] at hres
      split at hres
      · cases hres
      rename_i bk hbk
      split at hres
      · cases hres
      split at hres
      · cases hres
      rename_i mb hbor hav
      split at hres
      · rename_i r hold
        cases hres
        refine booksInv_map s.books s.nextBookId _
          (fun x => by by_cases hx : x.bid = b <;> simp [hx])
          (fun x hx hiff => ?_) h1 h2 h3
        by_cases hxx : x.bid = b
        · have hxbk : x = bk := mem_eq_of_find?_pairwise s.books b bk x h3 hbk hx hxx
          have hav' : bk.available = false := by
            cases hx2 : bk.available
            · rfl
            · exact absurd hx2 hav
          subst hxbk
          simp [hxx, hav']
        · simp [hxx, hiff]
      · rename_i hold
        cases hres
        exact booksInv_map s.books s.nextBookId _
          (fun x => by by_cases hx : x.bid = b <;> simp [hx])
          (fun x hx hiff => by by_cases hxx : x.bid = b <;> simp [hxx, hiff])
          h1 h2 h3
  | cancel b m =>
    simp only [applyOp]
    cases hres : CancelReservation s b m with
    | error e => exact ⟨h1, h2, h3⟩
    | ok s' =>
      show StoreInv s'
      unfold CancelReservation at hres
      simp only [] at hres
      split at hres
      · cases hres
      · cases hres
        exact ⟨h1, h2, h3⟩

theorem openResInv_applyOp (op : Op) (s : DBState) (h : openResInv s) :
    openResInv (applyOp op s) := by
  cases op with
  | addBook t a c =>
    exact h
  | addMember n hsh =>
    simp only [applyOp]
    cases hres : AddMember s n hsh with
    | error e => exact h
    | ok p =>
      show openResInv p.2
      unfold AddMember at hres
      split at hres
      · cases hres
      · split at hres
        · cases hres
        · cases hres
          exact h
  | checkout b m =>
    simp only [applyOp]
    cases hres : CheckoutBook s b m with
    | error e => exact h
    | ok s' =>
      show openResInv s'
      unfold CheckoutBook at hres
      split at hres
      · cases hres
      split at hres
      · cases hres
      split at hres
      · cases hres
      cases hres
      exact h
  | reserve b m =>
    simp only [applyOp]
    cases hres : ReserveBook s b m with
    | error e => exact h
    | ok s' =>
      show openResInv s'
      unfold ReserveBook at hres
      split at hres
      · cases hres
      split at hres
      · cases hres
      split at hres
      · cases hres
        exact h
      · split at hres
        · cases hres
        · split at hres
          · cases hres
          · rename_i hdup
            cases hres
            intro b' m'
            show openCount (s.reservations ++ [⟨s.nextReservationId, b, m, s.now, none⟩]) b' m' ≤ 1
            rw [openCount_append]
            by_cases hbm : b' = b ∧ m' = m
            · obtain ⟨rfl, rfl⟩ := hbm
              have hdup' : hasOpenReservation s b' m' = false := by
                cases hx : hasOpenReservation s b' m'
                · rfl
                · exact absurd hx hdup
              rw [openCount_zero_of_not_hasOpen s b' m' hdup']
              split <;> simp
            · have hrow : isOpenResFor b' m' ⟨s.nextReservationId, b, m, s.now, none⟩ = false := by
                unfold isOpenResFor
                simp only [Option.isNone_none, Bool.and_true]
                rw [not_and_or] at hbm
                rcases hbm with hbm | hbm
                · simp [Ne.symm hbm]
                · simp [Ne.symm hbm]
              rw [hrow]
              simpa using h b' m'
  | ret b =>
    simp only [applyOp]
    cases hres : ReturnBook s b with
    | error e => exact h
    | ok p =>
      show openResInv p.2
      unfold ReturnBook at hres
      simp only [] at hres
      split at hres
      · cases hres
      split at hres
      · cases hres
      split at hres
      · cases hres
      split at hres
      · rename_i r hold
        cases hres
        intro b' m'
        refine Nat.le_trans (length_filter_map_le s.reservations _ _ ?_) (h b' m')
        intro x hx
        by_cases hc : (x.bookId == b && x.memberId == r.memberId) = true
        · exfalso
          rw [if_pos hc] at hx
          unfold isOpenResFor at hx
          simp at hx
        · rw [if_neg hc]
      · rename_i hold
        cases hres
        exact h
  | cancel b m =>
    simp only [applyOp]
    cases hres : CancelReservation s b m with
    | error e => exact h
    | ok s' =>
      show openResInv s'
      unfold CancelReservation at hres
      simp only [] at hres
      split at hres
      · cases hres
      · cases hres
        intro b' m'
        exact Nat.le_trans (length_filter_filter_le s.reservations _ _) (h b' m')

theorem storeInv_init : StoreInv initState := by
  refine ⟨?_, ?_, ?_⟩ <;> simp [initState, booksOk]

theorem openResInv_init : openResInv initState := by
  intro b m
  simp [openCount, initState]

theorem inv_runFrom (P : DBState → Prop) (hP : ∀ op s, P s → P (applyOp op s))
    (ops : List Op) (s : DBState) (h : P s) : P (runFrom s ops) := by
  induction ops generalizing s with
  | nil => exact h
  | cons op ops ih => exact ih (applyOp op s) (hP op s h)

/-- C3: in every store reachable from a fresh database by the engine's
operations, a book's availability flag is true exactly when its borrower
column is `NULL`; moreover every single operation (checkout, reserve,
return, cancel, and the inserts) preserves this invariant from any
well-formed store. -/
theorem availability_iff_no_borrower :
    (∀ ops : List Op, availInv (runOps ops)) ∧
    (∀ s op, StoreInv s → availInv (applyOp op s)) := by
  constructor
  · intro ops
    exact (inv_runFrom StoreInv storeInv_applyOp ops initState storeInv_init).1
  · intro s op hs
    exact (storeInv_applyOp op s hs).1

theorem availability_iff_no_borrower_witness :
    availInv (applyOp (.ret 1) witState) :=
  availability_iff_no_borrower.2 witState (.ret 1)
    (by unfold StoreInv booksOk; refine ⟨by decide, by decide, by decide⟩)

/-- C6: in every reachable store each (book, member) pair has at most one
open reservation, and an attempt to create a second one fails with
`DuplicateReservation`, leaving the store unchanged. -/
theorem open_reservation_unique :
    (∀ ops : List Op, openResInv (runOps ops)) ∧
    (∀ s bookID memberID bk mm,
      findBook s bookID = some bk → findMember s memberID = some mm →
      bk.available = false → bk.borrower ≠ some memberID →
      hasOpenReservation s bookID memberID = true →
      ReserveBook s bookID memberID = .error .duplicateReservation ∧
      applyOp (.reserve bookID memberID) s = s) := by
  constructor
  · intro ops
    exact inv_runFrom openResInv openResInv_applyOp ops initState openResInv_init
  · intro s bookID memberID bk mm hbk hmm hav hbor hdup
    have hb : (match bk.borrower with
               | some b => b == memberID
               | none => false) = false := by
      cases hx : bk.borrower with
      | none => rfl
      | some v =>
        simp only [beq_eq_false_iff_ne, ne_eq]
        intro hv
        exact hbor (by rw [hx, hv])
    have herr : ReserveBook s bookID memberID = .error .duplicateReservation := by
      simp [ReserveBook, hbk, hmm, hav, hb, hdup]
    exact ⟨herr, by simp [applyOp, herr]⟩

theorem open_reservation_unique_witness :
    ReserveBook witState 1 2 = .error .duplicateReservation ∧
    applyOp (.reserve 1 2) witState = witState :=
  open_reservation_unique.2 witState 1 2 ⟨1, "t", "a", "c", false, some 4⟩
    ⟨2, "mb", some "h2"⟩ (by decide) (by decide) rfl (by decide) (by decide)

theorem find?_append_some {α : Type} (l l' : List α) (p : α → Bool) (a : α)
    (h : l.find? p = some a) : (l ++ l').find? p = some a := by
  induction l with
  | nil => cases h
  | cons x l ih =>
    cases hx : p x with
    | true =>
      rw [List.find?_cons_of_pos _ hx] at h
      rw [List.cons_append, List.find?_cons_of_pos _ hx]
      exact h
    | false =>
      rw [List.find?_cons_of_neg _ (by simp [hx])] at h
      rw [List.cons_append, List.find?_cons_of_neg _ (by simp [hx])]
      exact ih h

theorem filter_map_eq_of {α : Type} (l : List α) (g : α → α) (q : α → Bool)
    (h1 : ∀ x, q x = true → g x = x) (h2 : ∀ x, q (g x) = q x) :
    (l.map g).filter q = l.filter q := by
  induction l with
  | nil => rfl
  | cons x l ih =>
    simp only [List.map_cons, List.filter_cons, h2 x]
    cases hx : q x with
    | true => simp [hx, h1 x hx, ih]
    | false => simp [hx, ih]

theorem filter_filter_eq_of {α : Type} (l : List α) (keep q : α → Bool)
    (h : ∀ x, q x = true → keep x = true) :
    (l.filter keep).filter q = l.filter q := by
  induction l with
  | nil => rfl
  | cons x l ih =>
    cases hq : q x with
    | true =>
      have hk := h x hq
      simp [List.filter_cons, hq, hk, ih]
    | false =>
      cases hk : keep x with
      | true => simp [List.filter_cons, hq, hk, ih]
      | false => simp [List.filter_cons, hq, hk, ih]

theorem members_applyOp (op : Op) (s : DBState) :
    (applyOp op s).members = s.members ∨
      ∃ mr, (applyOp op s).members = s.members ++ [mr] := by
  cases op with
  | addBook t a c => exact Or.inl rfl
  | addMember n hsh =>
    simp only [applyOp]
    cases hres : AddMember s n hsh with
    | error e => exact Or.inl rfl
    | ok p =>
      unfold AddMember at hres
      split at hres
      · cases hres
      · split at hres
        · cases hres
        · cases hres
          exact Or.inr ⟨_, rfl⟩
  | checkout b m =>
    simp only [applyOp]
    cases hres : CheckoutBook s b m with
    | error e => exact Or.inl rfl
    | ok s' =>
      unfold CheckoutBook at hres
      split at hres
      · cases hres
      split at hres
      · cases hres
      split at hres
      · cases hres
      cases hres
      exact Or.inl rfl
  | reserve b m =>
    simp only [applyOp]
    cases hres : ReserveBook s b m with
    | error e => exact Or.inl rfl
    | ok s' =>
      unfold ReserveBook at hres
      split at hres
      · cases hres
      split at hres
      · cases hres
      split at hres
      · cases hres
        exact Or.inl rfl
      · split at hres
        · cases hres
        · split at hres
          · cases hres
          · cases hres
            exact Or.inl rfl
  | ret b =>
    simp only [applyOp]
    cases hres : ReturnBook s b with
    | error e => exact Or.inl rfl
    | ok p =>
      unfold ReturnBook at hres
      simp only [] at hres
      split at hres
      · cases hres
      split at hres
      · cases hres
      split at hres
      · cases hres
      split at hres
      · cases hres
        exact Or.inl rfl
      · cases hres
        exact Or.inl rfl
  | cancel b m =>
    simp only [applyOp]
    cases hres : CancelReservation s b m with
    | error e => exact Or.inl rfl
    | ok s' =>
      unfold CancelReservation at hres
      simp only [] at hres
      split at hres
      · cases hres
      · cases hres
        exact Or.inl rfl

theorem findMember_applyOp_some (op : Op) (s : DBState) (m : Nat) (mm : MemberRow)
    (h : findMember s m = some mm) : findMember (applyOp op s) m = some mm := by
  rcases members_applyOp op s with hmem | ⟨mr, hmem⟩
  · unfold findMember
    rw [hmem]
    exact h
  · unfold findMember
    rw [hmem]
    exact find?_append_some _ _ _ _ h

theorem findMember_runFrom_some (ops : List Op) (s : DBState) (m : Nat) (mm : MemberRow)
    (h : findMember s m = some mm) : findMember (runFrom s ops) m = some mm := by
  induction ops generalizing s with
  | nil => exact h
  | cons op ops ih => exact ih (applyOp op s) (findMember_applyOp_some op s m mm h)

theorem findBook_map_fix (books : List BookRow) (X : Nat) (bk : BookRow)
    (g : BookRow → BookRow) (hgbid : ∀ x, (g x).bid = x.bid)
    (h : books.find? (fun x => x.bid == X) = some bk)
    (hfixbk : g bk = bk) :
    (books.map g).find? (fun x => x.bid == X) = some bk := by
  rw [find?_map_bid books g X hgbid, h]
  simp [hfixbk]

theorem frame_applyOp (op : Op) (s : DBState) (X : Nat) (bk : BookRow)
    (hop : opTouches op X = false) (hbk : findBook s X = some bk) :
    findBook (applyOp op s) X = some bk ∧
    openResFor (applyOp op s) X = openResFor s X ∧
    s.now ≤ (applyOp op s).now := by
  have hbkX : bk.bid = X := by simpa using List.find?_some hbk
  cases op with
  | addBook t a c =>
    refine ⟨?_, rfl, Nat.le_succ _⟩
    show (s.books ++ _).find? _ = some bk
    exact find?_append_some _ _ _ _ hbk
  | addMember n hsh =>
    simp only [applyOp]
    cases hres : AddMember s n hsh with
    | error e => exact ⟨hbk, rfl, Nat.le_refl _⟩
    | ok p =>
      unfold AddMember at hres
      split at hres
      · cases hres
      · split at hres
        · cases hres
        · cases hres
          exact ⟨hbk, rfl, Nat.le_succ _⟩
  | checkout b m =>
    have hop' : (b == X) = false := hop
    have hXb : (bk.bid == b) = false := by
      rw [hbkX]
      exact beq_eq_false_iff_ne.mpr (fun hc => (beq_eq_false_iff_ne.mp hop') hc.symm)
    simp only [applyOp]
    cases hres : CheckoutBook s b m with
    | error e => exact ⟨hbk, rfl, Nat.le_refl _⟩
    | ok s' =>
      unfold CheckoutBook at hres
      split at hres
      · cases hres
      split at hres
      · cases hres
      split at hres
      · cases hres
      cases hres
      refine ⟨?_, rfl, Nat.le_succ _⟩
      show (s.books.map _).find? _ = some bk
      exact findBook_map_fix s.books X bk _
        (fun x => by by_cases hx : x.bid = b <;> simp [hx]) hbk (by simp [hXb])
  | reserve b m =>
    have hop' : (b == X) = false := hop
    have hXb : (bk.bid == b) = false := by
      rw [hbkX]
      exact beq_eq_false_iff_ne.mpr (fun hc => (beq_eq_false_iff_ne.mp hop') hc.symm)
    simp only [applyOp]
    cases hres : ReserveBook s b m with
    | error e => exact ⟨hbk, rfl, Nat.le_refl _⟩
    | ok s' =>
      unfold ReserveBook at hres
      split at hres
      · cases hres
      split at hres
      · cases hres
      split at hres
      · cases hres
        refine ⟨?_, rfl, Nat.le_succ _⟩
        show (s.books.map _).find? _ = some bk
        exact findBook_map_fix s.books X bk _
          (fun x => by by_cases hx : x.bid = b <;> simp [hx]) hbk (by simp [hXb])
      · split at hres
        · cases hres
        · split at hres
          · cases hres
          · cases hres
            refine ⟨hbk, ?_, Nat.le_succ _⟩
            show ((s.reservations ++ _).filter _) = _
            rw [List.filter_append]
            have hrow : (((⟨s.nextReservationId, b, m, s.now, none⟩ : ReservationRow)).bookId == X &&
                ((⟨s.nextReservationId, b, m, s.now, none⟩ : ReservationRow)).fulfilledTime.isNone) = false := by
              simp only [Option.isNone_none, Bool.and_true]
              exact hop'
            have hbX2 : ¬ b = X := beq_eq_false_iff_ne.mp hop'
            simp only [List.filter_cons, hrow, if_false, List.filter_nil, List.append_nil,
              Bool.false_eq_true]
            rfl
  | ret b =>
    have hop' : (b == X) = false := hop
    have hXb : (bk.bid == b) = false := by
      rw [hbkX]
      exact beq_eq_false_iff_ne.mpr (fun hc => (beq_eq_false_iff_ne.mp hop') hc.symm)
    simp only [applyOp]
    cases hres : ReturnBook s b with
    | error e => exact ⟨hbk, rfl, Nat.le_refl _⟩
    | ok p =>
      unfold ReturnBook at hres
      simp only [] at hres
      split at hres
      · cases hres
      rename_i bk' hbk'
      split at hres
      · cases hres
      rename_i mb hbor'
      split at hres
      · cases hres
      split at hres
      · rename_i r hold
        cases hres
        refine ⟨?_, ?_, Nat.le_succ _⟩
        · show (s.books.map _).find? _ = some bk
          exact findBook_map_fix s.books X bk _
            (fun x => by by_cases hx : x.bid = b <;> simp [hx]) hbk (by simp [hXb])
        · show ((s.reservations.map _).filter _) = _
          refine filter_map_eq_of s.reservations _ _ ?_ ?_
          · intro x hx
            have hxX : x.bookId = X := by
              have hx' := hx
              simp only [Bool.and_eq_true, beq_iff_eq] at hx'
              exact hx'.1
            have hc : (x.bookId == b && x.memberId == r.memberId) = false := by
              rw [hxX]
              rw [Bool.and_eq_false_iff]
              left
              exact beq_eq_false_iff_ne.mpr (fun hc => (beq_eq_false_iff_ne.mp hop') hc.symm)
            simp [hc]
          · intro x
            by_cases hc : (x.bookId == b && x.memberId == r.memberId) = true
            · have hxb : x.bookId = b := by
                have hc' := hc
                simp only [Bool.and_eq_true, beq_iff_eq] at hc'
                exact hc'.1
              have hxX : (x.bookId == X) = false := by
                rw [hxb]
                exact hop'
              simp [hc, hxX]
            · rw [if_neg hc]
      · rename_i hold
        cases hres
        refine ⟨?_, rfl, Nat.le_succ _⟩
        show (s.books.map _).find? _ = some bk
        exact findBook_map_fix s.books X bk _
          (fun x => by by_cases hx : x.bid = b <;> simp [hx]) hbk (by simp [hXb])
  | cancel b m =>
    have hop' : (b == X) = false := hop
    simp only [applyOp]
    cases hres : CancelReservation s b m with
    | error e => exact ⟨hbk, rfl, Nat.le_refl _⟩
    | ok s' =>
      unfold CancelReservation at hres
      simp only [] at hres
      split at hres
      · cases hres
      · cases hres
        refine ⟨hbk, ?_, Nat.le_refl _⟩
        show ((s.reservations.filter _).filter _) = _
        refine filter_filter_eq_of s.reservations _ _ ?_
        intro x hx
        have hxX : x.bookId = X := by
          have hx' := hx
          simp only [Bool.and_eq_true, beq_iff_eq] at hx'
          exact hx'.1
        have hro : isOpenResFor b m x = false := by
          unfold isOpenResFor
          rw [Bool.and_eq_false_iff]
          left
          rw [Bool.and_eq_false_iff]
          left
          rw [hxX]
          exact beq_eq_false_iff_ne.mpr (fun hc => (beq_eq_false_iff_ne.mp hop') hc.symm)
        simp [hro]

theorem frame_runFrom (ops : List Op) (s : DBState) (X : Nat) (bk : BookRow)
    (hops : avoidsBook ops X) (hbk : findBook s X = some bk) :
    findBook (runFrom s ops) X = some bk ∧
    openResFor (runFrom s ops) X = openResFor s X ∧
    s.now ≤ (runFrom s ops).now := by
  induction ops generalizing s with
  | nil => exact ⟨hbk, rfl, Nat.le_refl _⟩
  | cons op ops ih =>
    have hop : opTouches op X = false := hops op (List.mem_cons_self _ _)
    obtain ⟨f1, f2, f3⟩ := frame_applyOp op s X bk hop hbk
    obtain ⟨g1, g2, g3⟩ := ih (applyOp op s) (fun o ho => hops o (List.mem_cons_of_mem _ ho)) f1
    exact ⟨g1, g2.trans f2, Nat.le_trans f3 g3⟩

theorem hasOpen_false_of_openResFor (s : DBState) (X m : Nat)
    (h : ∀ r ∈ openResFor s X, r.memberId ≠ m) :
    hasOpenReservation s X m = false := by
  unfold hasOpenReservation
  rw [List.any_eq_false]
  intro r hr hc
  have hc' := hc
  simp only [isOpenResFor, Bool.and_eq_true, beq_iff_eq,
    Option.isNone_iff_eq_none] at hc'
  obtain ⟨⟨hb, hm⟩, hf⟩ := hc'
  refine h r ?_ hm
  exact List.mem_filter.mpr ⟨hr, by simp [hb, hf]⟩

theorem foldl_min_keep (rest : List ReservationRow) (r : ReservationRow)
    (h : ∀ r' ∈ rest, ¬ r'.reservationTime < r.reservationTime) :
    rest.foldl (fun acc q =>
      match acc with
      | none => some q
      | some best =>
          if q.reservationTime < best.reservationTime then some q else some best)
      (some r) = some r := by
  induction rest with
  | nil => rfl
  | cons x l ih =>
    rw [List.foldl_cons]
    have hx : ¬ x.reservationTime < r.reservationTime := h x (List.mem_cons_self _ _)
    change l.foldl _
      (if x.reservationTime < r.reservationTime then some x else some r) = some r
    rw [if_neg hx]
    exact ih (fun r' hr' => h r' (List.mem_cons_of_mem _ hr'))

theorem reserve_queued_eq (s : DBState) (X m : Nat) (bk : BookRow) (mm : MemberRow)
    (hbk : findBook s X = some bk) (hav : bk.available = false)
    (hbor : bk.borrower ≠ some m) (hdup : hasOpenReservation s X m = false)
    (hmm : findMember s m = some mm) :
    ReserveBook s X m = .ok (queuedState s X m) := by
  have hb : (match bk.borrower with
             | some b => b == m
             | none => false) = false := by
    cases hx : bk.borrower with
    | none => rfl
    | some v =>
      simp only [beq_eq_false_iff_ne, ne_eq]
      intro hv
      exact hbor (by rw [hx, hv])
  simp [ReserveBook, queuedState, hbk, hmm, hav, hb, hdup]

theorem openResFor_queuedState (s : DBState) (X m : Nat) :
    openResFor (queuedState s X m) X =
      openResFor s X ++ [⟨s.nextReservationId, X, m, s.now, none⟩] := by
  unfold openResFor queuedState
  rw [List.filter_append]
  simp [List.filter_cons]

theorem openResFor_stamp (l : List ReservationRow) (X rm t : Nat) :
    ((l.map (fun q => if q.bookId == X && q.memberId == rm
        then { q with fulfilledTime := some t } else q)).filter
      (fun q => q.bookId == X && q.fulfilledTime.isNone)) =
    l.filter (fun q => (!(q.memberId == rm)) && (q.bookId == X && q.fulfilledTime.isNone)) := by
  induction l with
  | nil => rfl
  | cons x l ih =>
    by_cases hbX : x.bookId = X <;> by_cases hm : x.memberId = rm <;>
      by_cases hfn : x.fulfilledTime = none <;>
      (simp [List.filter_cons, Option.isNone_iff_eq_none, hbX, hm, hfn] at ih ⊢ <;> exact ih)

theorem return_assign_step (s : DBState) (X curm : Nat) (bk : BookRow)
    (r : ReservationRow) (rest : List ReservationRow)
    (hbk : findBook s X = some bk) (hav : bk.available = false)
    (hbor : bk.borrower = some curm)
    (hq : openResFor s X = r :: rest)
    (hmin : ∀ r' ∈ rest, r.reservationTime < r'.reservationTime)
    (hmem : ∀ r' ∈ rest, r'.memberId ≠ r.memberId) :
    ∃ s', ReturnBook s X = .ok (curm, s') ∧
      findBook s' X = some { bk with borrower := some r.memberId } ∧
      openResFor s' X = rest := by
  have hbkX : bk.bid = X := by simpa using List.find?_some hbk
  have hold : oldestOpenReservation s X = some r := by
    unfold oldestOpenReservation
    rw [hq]
    rw [List.foldl_cons]
    exact foldl_min_keep rest r
      (fun r' hr' => Nat.not_lt.mpr (Nat.le_of_lt (hmin r' hr')))
  have hmain : ReturnBook s X = .ok (curm, { s with
      books := s.books.map (fun b =>
        if b.bid == X then { b with borrower := some r.memberId } else b),
      checkouts := (s.checkouts.map (fun c =>
        if c.bookId == X && c.memberId == curm && c.returnTime.isNone
        then { c with returnTime := some s.now } else c)) ++
        [⟨s.nextCheckoutId, X, r.memberId, s.now, none⟩],
      reservations := s.reservations.map (fun q =>
        if q.bookId == X && q.memberId == r.memberId
        then { q with fulfilledTime := some s.now } else q),
      nextCheckoutId := s.nextCheckoutId + 1,
      now := s.now + 1 }) := by
    simp [ReturnBook, hbk, hbor, hav, hold]
  refine ⟨_, hmain, ?_, ?_⟩
  · show (s.books.map _).find? _ = _
    rw [find?_map_bid _ _ _ (fun x => by by_cases hx : x.bid = X <;> simp [hx])]
    have hfind : s.books.find? (fun b => b.bid == X) = some bk := hbk
    rw [hfind]
    simp [hbkX]
  · show ((s.reservations.map _).filter _) = rest
    rw [openResFor_stamp s.reservations X r.memberId s.now]
    have hcomb : (s.reservations.filter
          (fun q => (!(q.memberId == r.memberId)) && (q.bookId == X && q.fulfilledTime.isNone))) =
        ((s.reservations.filter (fun q => q.bookId == X && q.fulfilledTime.isNone)).filter
          (fun q => !(q.memberId == r.memberId))) :=
      (List.filter_filter _ _).symm
    rw [hcomb]
    have hq' : (s.reservations.filter
        (fun q => q.bookId == X && q.fulfilledTime.isNone)) = r :: rest := hq
    rw [hq']
    rw [List.filter_cons]
    simp only [beq_self_eq_true, Bool.not_true, Bool.false_eq_true, if_false]
    exact List.filter_eq_self.mpr (fun a ha => by simp [hmem a ha])

/-- C4: if members A, then B, then C reserve an unavailable book in that
order (each reservation queued), then — whatever operations on other books
are interleaved anywhere in between — the successive returns of the book
hand it first to A, then to B, then to C, in reservation order. -/
theorem reservation_fifo
    (s0 : DBState) (X A B C h0 : Nat) (bk : BookRow) (mA mB mC : MemberRow)
    (L1 L2 L3 L4 L5 : List Op)
    (hAh : A ≠ h0) (hBh : B ≠ h0) (hCh : C ≠ h0)
    (hAB : A ≠ B) (hAC : A ≠ C) (hBC : B ≠ C)
    (hbk : findBook s0 X = some bk) (hav : bk.available = false)
    (hbor : bk.borrower = some h0)
    (hmA : findMember s0 A = some mA) (hmB : findMember s0 B = some mB)
    (hmC : findMember s0 C = some mC)
    (hq0 : openResFor s0 X = [])
    (hL1 : avoidsBook L1 X) (hL2 : avoidsBook L2 X) (hL3 : avoidsBook L3 X)
    (hL4 : avoidsBook L4 X) (hL5 : avoidsBook L5 X) :
    ∃ s4 s5 s6,
      ReturnBook (runFrom (applyOp (.reserve X C)
          (runFrom (applyOp (.reserve X B)
            (runFrom (applyOp (.reserve X A) s0) L1)) L2)) L3) X = .ok (h0, s4) ∧
      (findBook s4 X).map BookRow.borrower = some (some A) ∧
      ReturnBook (runFrom s4 L4) X = .ok (A, s5) ∧
      (findBook s5 X).map BookRow.borrower = some (some B) ∧
      ReturnBook (runFrom s5 L5) X = .ok (B, s6) ∧
      (findBook s6 X).map BookRow.borrower = some (some C) := by
  -- reserve A
  have hborA : bk.borrower ≠ some A := by
    rw [hbor]
    intro hc
    exact hAh (Option.some.inj hc).symm
  have hdupA : hasOpenReservation s0 X A = false := by
    refine hasOpen_false_of_openResFor s0 X A ?_
    rw [hq0]
    intro r hr
    cases hr
  have hresA : ReserveBook s0 X A = .ok (queuedState s0 X A) :=
    reserve_queued_eq s0 X A bk mA hbk hav hborA hdupA hmA
  have happA : applyOp (.reserve X A) s0 = queuedState s0 X A := by
    simp [applyOp, hresA]
  have hqA : openResFor (queuedState s0 X A) X =
      [⟨s0.nextReservationId, X, A, s0.now, none⟩] := by
    rw [openResFor_queuedState, hq0]
    rfl
  rw [happA]
  -- interleaving L1
  obtain ⟨hfb1, hor1, hnow1⟩ :=
    frame_runFrom L1 (queuedState s0 X A) X bk hL1
      (show findBook (queuedState s0 X A) X = some bk from hbk)
  set s1 := runFrom (queuedState s0 X A) L1 with hs1def
  have ht1 : s0.now + 1 ≤ s1.now := hnow1
  have hq1 : openResFor s1 X = [⟨s0.nextReservationId, X, A, s0.now, none⟩] :=
    hor1.trans hqA
  -- reserve B
  have hmB1 : findMember s1 B = some mB :=
    findMember_runFrom_some L1 (queuedState s0 X A) B mB hmB
  have hborB : bk.borrower ≠ some B := by
    rw [hbor]
    intro hc
    exact hBh (Option.some.inj hc).symm
  have hdupB : hasOpenReservation s1 X B = false := by
    refine hasOpen_false_of_openResFor s1 X B ?_
    rw [hq1]
    intro r hr
    rcases List.mem_singleton.1 hr with rfl
    intro hc
    exact hAB hc
  have hresB : ReserveBook s1 X B = .ok (queuedState s1 X B) :=
    reserve_queued_eq s1 X B bk mB hfb1 hav hborB hdupB hmB1
  have happB : applyOp (.reserve X B) s1 = queuedState s1 X B := by
    simp [applyOp, hresB]
  have hqB : openResFor (queuedState s1 X B) X =
      [⟨s0.nextReservationId, X, A, s0.now, none⟩,
       ⟨s1.nextReservationId, X, B, s1.now, none⟩] := by
    rw [openResFor_queuedState, hq1]
    rfl
  rw [happB]
  -- interleaving L2
  obtain ⟨hfb2, hor2, hnow2⟩ :=
    frame_runFrom L2 (queuedState s1 X B) X bk hL2
      (show findBook (queuedState s1 X B) X = some bk from hfb1)
  set s2 := runFrom (queuedState s1 X B) L2 with hs2def
  have ht2 : s1.now + 1 ≤ s2.now := hnow2
  have hq2 : openResFor s2 X =
      [⟨s0.nextReservationId, X, A, s0.now, none⟩,
       ⟨s1.nextReservationId, X, B, s1.now, none⟩] :=
    hor2.trans hqB
  -- reserve C
  have hmC1 : findMember s1 C = some mC :=
    findMember_runFrom_some L1 (queuedState s0 X A) C mC hmC
  have hmC2 : findMember s2 C = some mC :=
    findMember_runFrom_some L2 (queuedState s1 X B) C mC hmC1
  have hborC : bk.borrower ≠ some C := by
    rw [hbor]
    intro hc
    exact hCh (Option.some.inj hc).symm
  have hdupC : hasOpenReservation s2 X C = false := by
    refine hasOpen_false_of_openResFor s2 X C ?_
    rw [hq2]
    intro r hr
    rcases List.mem_cons.1 hr with rfl | hr
    · intro hc
      exact hAC hc
    · rcases List.mem_singleton.1 hr with rfl
      intro hc
      exact hBC hc
  have hresC : ReserveBook s2 X C = .ok (queuedState s2 X C) :=
    reserve_queued_eq s2 X C bk mC hfb2 hav hborC hdupC hmC2
  have happC : applyOp (.reserve X C) s2 = queuedState s2 X C := by
    simp [applyOp, hresC]
  have hqC : openResFor (queuedState s2 X C) X =
      [⟨s0.nextReservationId, X, A, s0.now, none⟩,
       ⟨s1.nextReservationId, X, B, s1.now, none⟩,
       ⟨s2.nextReservationId, X, C, s2.now, none⟩] := by
    rw [openResFor_queuedState, hq2]
    rfl
  rw [happC]
  -- interleaving L3
  obtain ⟨hfb3, hor3, hnow3⟩ :=
    frame_runFrom L3 (queuedState s2 X C) X bk hL3
      (show findBook (queuedState s2 X C) X = some bk from hfb2)
  set s3 := runFrom (queuedState s2 X C) L3 with hs3def
  have hq3 : openResFor s3 X =
      [⟨s0.nextReservationId, X, A, s0.now, none⟩,
       ⟨s1.nextReservationId, X, B, s1.now, none⟩,
       ⟨s2.nextReservationId, X, C, s2.now, none⟩] :=
    hor3.trans hqC
  -- first return: the book goes to A
  obtain ⟨s4, hret1, hfb4, hor4⟩ :=
    return_assign_step s3 X h0 bk
      ⟨s0.nextReservationId, X, A, s0.now, none⟩
      [⟨s1.nextReservationId, X, B, s1.now, none⟩,
       ⟨s2.nextReservationId, X, C, s2.now, none⟩]
      hfb3 hav hbor hq3
      (by
        intro r' hr'
        rcases List.mem_cons.1 hr' with rfl | hr'
        · show s0.now < s1.now
          omega
        · rcases List.mem_singleton.1 hr' with rfl
          show s0.now < s2.now
          omega)
      (by
        intro r' hr'
        rcases List.mem_cons.1 hr' with rfl | hr'
        · show B ≠ A
          exact fun hc => hAB hc.symm
        · rcases List.mem_singleton.1 hr' with rfl
          show C ≠ A
          exact fun hc => hAC hc.symm)
  -- interleaving L4
  obtain ⟨hfb4L, hor4L, hnow4⟩ :=
    frame_runFrom L4 s4 X
      { bk with borrower := some (⟨s0.nextReservationId, X, A, s0.now, none⟩ : ReservationRow).memberId }
      hL4 hfb4
  -- second return: the book goes to B
  obtain ⟨s5, hret2, hfb5, hor5⟩ :=
    return_assign_step (runFrom s4 L4) X A
      { bk with borrower := some A }
      ⟨s1.nextReservationId, X, B, s1.now, none⟩
      [⟨s2.nextReservationId, X, C, s2.now, none⟩]
      hfb4L hav rfl (hor4L.trans hor4)
      (by
        intro r' hr'
        rcases List.mem_singleton.1 hr' with rfl
        show s1.now < s2.now
        omega)
      (by
        intro r' hr'
        rcases List.mem_singleton.1 hr' with rfl
        show C ≠ B
        exact fun hc => hBC hc.symm)
  -- interleaving L5
  obtain ⟨hfb5L, hor5L, hnow5⟩ :=
    frame_runFrom L5 s5 X
      { bk with borrower := some (⟨s1.nextReservationId, X, B, s1.now, none⟩ : ReservationRow).memberId }
      hL5 hfb5
  -- third return: the book goes to C
  obtain ⟨s6, hret3, hfb6, hor6⟩ :=
    return_assign_step (runFrom s5 L5) X B
      { bk with borrower := some B }
      ⟨s2.nextReservationId, X, C, s2.now, none⟩
      []
      hfb5L hav rfl (hor5L.trans hor5)
      (by
        intro r' hr'
        cases hr')
      (by
        intro r' hr'
        cases hr')
  refine ⟨s4, s5, s6, hret1, ?_, hret2, ?_, hret3, ?_⟩
  · rw [hfb4]
    rfl
  · rw [hfb5]
    rfl
  · rw [hfb6]
    rfl

theorem reservation_fifo_witness :
    ∃ s4 s5 s6,
      ReturnBook (runFrom (applyOp (.reserve 1 3)
          (runFrom (applyOp (.reserve 1 2)
            (runFrom (applyOp (.reserve 1 1) c4State) [])) [])) []) 1 = .ok (4, s4) ∧
      (findBook s4 1).map BookRow.borrower = some (some 1) ∧
      ReturnBook (runFrom s4 []) 1 = .ok (1, s5) ∧
      (findBook s5 1).map BookRow.borrower = some (some 2) ∧
      ReturnBook (runFrom s5 []) 1 = .ok (2, s6) ∧
      (findBook s6 1).map BookRow.borrower = some (some 3) :=
  reservation_fifo c4State 1 1 2 3 4 ⟨1, "t", "a", "c", false, some 4⟩
    ⟨1, "ma", none⟩ ⟨2, "mb", none⟩ ⟨3, "mc", none⟩ [] [] [] [] []
    (by decide) (by decide) (by decide) (by decide) (by decide) (by decide)
    (by decide) rfl rfl (by decide) (by decide) (by decide) rfl
    (by intro op h; cases h) (by intro op h; cases h) (by intro op h; cases h)
    (by intro op h; cases h) (by intro op h; cases h)
